import Mathlib

/-!
The in-memory filesystem module newfs (src/newfs.c).

A shallow embedding of `newfs.c`.  Kernel objects live in an explicit heap:
an inode pointer is an index into `kernel.inodes`, a dentry pointer is an index
into `kernel.dentries`, and a NULL pointer is `none`.  Every C function that
mutates objects becomes a function from the heap to the heap.  An `int mode`
and a `dev_t dev` are natural numbers (the bit pattern of the argument); the
16-bit `i_mode` and the 32-bit `i_nlink` are reduced modulo 2^16 and 2^32 where
the C code stores into them.

The host primitives the module calls (`new_inode`, `inc_nlink`,
`d_instantiate`, `dget`, `d_alloc_root`, `init_special_inode`) are part of the
Linux kernel, not of this module; they are written out here after the kernel of
the same generation (2.6.2x: `fs/inode.c`, `fs/dcache.c`, `include/linux/fs.h`).
A single mount instance is modelled, so `inode->i_sb` and the `sb` argument of
`new_inode` and `newfs_get_inode` are left out.
-/

namespace newfs

/-! ## Constants -/

/-- Magic number of the filesystem, `#define NEWFS_MAGIC 0x06376786`. -/
def NEWFS_MAGIC : Nat := 0x06376786

/-- File-type mask of a mode, `S_IFMT` (octal 0170000). -/
def S_IFMT : Nat := 0o170000
/-- Type bits of a socket. -/
def S_IFSOCK : Nat := 0o140000
/-- Type bits of a regular file. -/
def S_IFREG : Nat := 0o100000
/-- Type bits of a block device. -/
def S_IFBLK : Nat := 0o060000
/-- Type bits of a directory. -/
def S_IFDIR : Nat := 0o040000
/-- Type bits of a character device. -/
def S_IFCHR : Nat := 0o020000
/-- Type bits of a FIFO. -/
def S_IFIFO : Nat := 0o010000
/-- The set-group-id bit. -/
def S_ISGID : Nat := 0o002000

/-- Error number `ENOSPC`. -/
def ENOSPC : Int := 28

/-- Host constant `PAGE_CACHE_SHIFT` (4 KiB pages). -/
def PAGE_CACHE_SHIFT : Nat := 12
/-- Host constant `PAGE_CACHE_SIZE`. -/
def PAGE_CACHE_SIZE : Nat := 2 ^ PAGE_CACHE_SHIFT
/-- Host constant `MAX_LFS_FILESIZE` (64-bit host). -/
def MAX_LFS_FILESIZE : Nat := 0x7fffffffffffffff

/-- Macro `S_ISDIR(m)`: `((m) & S_IFMT) == S_IFDIR`. -/
def S_ISDIR (m : Nat) : Bool := m &&& S_IFMT == S_IFDIR
/-- Macro `S_ISREG(m)`. -/
def S_ISREG (m : Nat) : Bool := m &&& S_IFMT == S_IFREG
/-- Macro `S_ISCHR(m)`. -/
def S_ISCHR (m : Nat) : Bool := m &&& S_IFMT == S_IFCHR
/-- Macro `S_ISBLK(m)`. -/
def S_ISBLK (m : Nat) : Bool := m &&& S_IFMT == S_IFBLK
/-- Macro `S_ISFIFO(m)`. -/
def S_ISFIFO (m : Nat) : Bool := m &&& S_IFMT == S_IFIFO
/-- Macro `S_ISSOCK(m)`. -/
def S_ISSOCK (m : Nat) : Bool := m &&& S_IFMT == S_IFSOCK

/-! ## Operation tables -/

/-- Slots of a `struct file_operations` that some table of this module fills. -/
inductive fop_slot
  | llseek | read | write | aio_read | aio_write | readdir | mmap | open
  | flush | release | fsync | splice_write | splice_read
  deriving DecidableEq, Repr

/-- Handlers stored in the file-operation table of this module. -/
inductive fop_handler
  | do_sync_read | generic_file_aio_read | do_sync_write | generic_file_aio_write
  | generic_file_mmap | simple_sync_file | generic_file_llseek
  | generic_file_splice_read
  deriving DecidableEq, Repr

/-- Slots of a `struct inode_operations`. -/
inductive iop_slot
  | create | lookup | link | unlink | symlink | mkdir | rmdir | mknod | rename
  | readlink | follow_link | put_link | truncate | permission | setattr | getattr
  deriving DecidableEq, Repr

/-- Handlers stored in the directory inode-operation table of this module. -/
inductive iop_handler
  | newfs_create | newfs_mknod | simple_lookup | simple_unlink | simple_rename
  | newfs_mkdir | simple_rmdir
  deriving DecidableEq, Repr

/-- Slots of a `struct address_space_operations` filled by this module. -/
inductive aop_slot
  | readpage | write_begin | write_end
  deriving DecidableEq, Repr

/-- Handlers stored in `newfs_aops`. -/
inductive aop_handler
  | simple_readpage | simple_write_begin | simple_write_end
  deriving DecidableEq, Repr

/-- The table `newfs_aops` (lines 18-22). -/
def newfs_aops : List (aop_slot × aop_handler) :=
  [ (.readpage, .simple_readpage),
    (.write_begin, .simple_write_begin),
    (.write_end, .simple_write_end) ]

/-- The table `newfs_file_operations` (lines 25-34). -/
def newfs_file_operations : List (fop_slot × fop_handler) :=
  [ (.read, .do_sync_read),
    (.aio_read, .generic_file_aio_read),
    (.write, .do_sync_write),
    (.aio_write, .generic_file_aio_write),
    (.mmap, .generic_file_mmap),
    (.fsync, .simple_sync_file),
    (.llseek, .generic_file_llseek),
    (.splice_read, .generic_file_splice_read) ]

/-- The table `newfs_dir_inode_operations` (lines 72-82). -/
def newfs_dir_inode_operations : List (iop_slot × iop_handler) :=
  [ (.create, .newfs_create),
    (.mknod, .newfs_mknod),
    (.lookup, .simple_lookup),
    (.unlink, .simple_unlink),
    (.rename, .simple_rename),
    (.mkdir, .newfs_mkdir),
    (.rmdir, .simple_rmdir) ]

/-- Values an `inode->i_op` pointer takes: the host tables `empty_iops` and
`simple_dir_inode_operations`, and this module's `newfs_dir_inode_operations`. -/
inductive iops_ptr
  | empty_iops | simple_dir_inode_operations | newfs_dir_inode_operations
  deriving DecidableEq, Repr

/-- Values an `inode->i_fop` pointer takes: the host tables and this module's
`newfs_file_operations`. -/
inductive fops_ptr
  | empty_fops | newfs_file_operations | simple_dir_operations
  | def_chr_fops | def_blk_fops | def_fifo_fops | bad_sock_fops
  deriving DecidableEq, Repr

/-- Values of `inode->i_mapping->a_ops`. -/
inductive aops_ptr
  | empty_aops | newfs_aops
  deriving DecidableEq, Repr

/-- Values of `inode->i_mapping->backing_dev_info`. -/
inductive bdi_ptr
  | default_backing_dev_info | newfs_backing_dev_info
  deriving DecidableEq, Repr

/-- Values of `sb->s_op`. -/
inductive sops_ptr
  | unset | newfs_ops
  deriving DecidableEq, Repr

/-! ## Data model -/

/-- The fields of `struct inode` this module reads or writes.  `i_mode` is a
16-bit `umode_t`, `i_nlink` a 32-bit `unsigned int`. -/
structure inode where
  i_mode : Nat
  i_uid : Nat
  i_gid : Nat
  i_nlink : Nat
  i_blocks : Nat
  i_rdev : Nat
  i_atime : Nat
  i_mtime : Nat
  i_ctime : Nat
  i_op : iops_ptr
  i_fop : fops_ptr
  a_ops : aops_ptr
  backing_dev_info : bdi_ptr
  deriving DecidableEq, Repr

/-- The fields of `struct dentry` this module and its callers touch.
`d_parent` is a dentry pointer, `d_inode` an inode pointer or NULL. -/
structure dentry where
  d_parent : Nat
  d_name : String
  d_inode : Option Nat
  d_count : Nat
  deriving DecidableEq, Repr

/-- The fields of `struct super_block` set by `newfs_fill_super`. -/
structure super_block where
  s_magic : Nat
  s_maxbytes : Nat
  s_blocksize : Nat
  s_blocksize_bits : Nat
  s_time_gran : Nat
  s_op : sops_ptr
  s_root : Option Nat
  deriving DecidableEq, Repr

/-- Host state seen by the module: the inode and dentry heaps, how many more
objects the host allocators can hand out before they return NULL, the
credentials of `current`, and the clock `CURRENT_TIME`. -/
structure kernel where
  inodes : List inode
  dentries : List dentry
  free_inodes : Nat
  free_dentries : Nat
  fsuid : Nat
  fsgid : Nat
  now : Nat
  deriving DecidableEq, Repr

/-- What the host allocator leaves in a new inode (`alloc_inode` in
`fs/inode.c`: `inode->i_nlink = 1`, `i_op = &empty_iops`, `i_fop = &empty_fops`,
`a_ops = &empty_aops`, `backing_dev_info = &default_backing_dev_info`); the
fields the module overwrites before reading are taken as zero. -/
def blank_inode : inode :=
  { i_mode := 0, i_uid := 0, i_gid := 0, i_nlink := 1, i_blocks := 0, i_rdev := 0,
    i_atime := 0, i_mtime := 0, i_ctime := 0,
    i_op := .empty_iops, i_fop := .empty_fops,
    a_ops := .empty_aops, backing_dev_info := .default_backing_dev_info }

/-- A dentry with no name and no inode, read through a dangling pointer. -/
def blank_dentry : dentry :=
  { d_parent := 0, d_name := "", d_inode := none, d_count := 0 }

/-- Dereference of an inode pointer. -/
def kernel.inode_at (k : kernel) (p : Nat) : inode := k.inodes.getD p blank_inode

/-- Dereference of a dentry pointer. -/
def kernel.dentry_at (k : kernel) (p : Nat) : dentry := k.dentries.getD p blank_dentry

/-- Store through an inode pointer. -/
def kernel.set_inode (k : kernel) (p : Nat) (v : inode) : kernel :=
  { k with inodes := k.inodes.set p v }

/-- Store through a dentry pointer. -/
def kernel.set_dentry (k : kernel) (p : Nat) (v : dentry) : kernel :=
  { k with dentries := k.dentries.set p v }

/-! ## Host primitives -/

/-- Host `new_inode(sb)`: NULL when the allocator is exhausted, otherwise a
pointer to a new inode with `i_nlink = 1`. -/
def new_inode (k : kernel) : Option Nat × kernel :=
  if k.free_inodes = 0 then (none, k)
  else (some k.inodes.length,
        { k with inodes := k.inodes ++ [blank_inode], free_inodes := k.free_inodes - 1 })

/-- Host `inc_nlink(inode)`: `inode->i_nlink++` on an `unsigned int`. -/
def inc_nlink (k : kernel) (p : Nat) : kernel :=
  k.set_inode p { k.inode_at p with i_nlink := ((k.inode_at p).i_nlink + 1) % 2 ^ 32 }

/-- Host `d_instantiate(dentry, inode)`: `dentry->d_inode = inode`. -/
def d_instantiate (k : kernel) (d : Nat) (ino : Nat) : kernel :=
  k.set_dentry d { k.dentry_at d with d_inode := some ino }

/-- Host `dget(dentry)`: one more reference on the dentry. -/
def dget (k : kernel) (d : Nat) : kernel :=
  k.set_dentry d { k.dentry_at d with d_count := (k.dentry_at d).d_count + 1 }

/-- Host `d_alloc_root(root_inode)`: NULL for a NULL inode or when no dentry can
be allocated, otherwise a new dentry named "/" that is its own parent and is
instantiated with the inode. -/
def d_alloc_root (k : kernel) (root_inode : Option Nat) : Option Nat × kernel :=
  match root_inode with
  | none => (none, k)
  | some ino =>
    if k.free_dentries = 0 then (none, k)
    else
      let res := k.dentries.length
      (some res,
       { k with
         dentries := k.dentries ++ [{ d_parent := res, d_name := "/", d_inode := some ino, d_count := 1 }],
         free_dentries := k.free_dentries - 1 })

/-- Host `init_special_inode(inode, mode, rdev)`: stores the mode and picks the
host's file operations by the kind of special node; character and block
devices also record `rdev`. -/
def init_special_inode (k : kernel) (p : Nat) (mode rdev : Nat) : kernel :=
  let k1 := k.set_inode p { k.inode_at p with i_mode := mode % 2 ^ 16 }
  if S_ISCHR mode then
    k1.set_inode p { k1.inode_at p with i_fop := .def_chr_fops, i_rdev := rdev }
  else if S_ISBLK mode then
    k1.set_inode p { k1.inode_at p with i_fop := .def_blk_fops, i_rdev := rdev }
  else if S_ISFIFO mode then
    k1.set_inode p { k1.inode_at p with i_fop := .def_fifo_fops }
  else if S_ISSOCK mode then
    k1.set_inode p { k1.inode_at p with i_fop := .bad_sock_fops }
  else k1

/-! ## The module -/

/-- Function `newfs_get_inode` (lines 97-128). -/
def newfs_get_inode (k : kernel) (mode dev : Nat) : Option Nat × kernel :=
  let (root, k1) := new_inode k
  match root with
  | none => (none, k1)
  | some r =>
    let k2 := k1.set_inode r
      { k1.inode_at r with
        a_ops := .newfs_aops,
        i_mode := mode % 2 ^ 16,
        i_gid := k1.fsgid,
        i_blocks := 1024,
        i_uid := k1.fsuid,
        i_atime := k1.now, i_mtime := k1.now, i_ctime := k1.now,
        backing_dev_info := .newfs_backing_dev_info }
    let k3 :=
      if mode &&& S_IFMT = S_IFREG then
        k2.set_inode r
          { k2.inode_at r with i_op := .simple_dir_inode_operations, i_fop := .newfs_file_operations }
      else if mode &&& S_IFMT = S_IFDIR then
        inc_nlink
          (k2.set_inode r
            { k2.inode_at r with i_op := .newfs_dir_inode_operations, i_fop := .simple_dir_operations })
          r
      else init_special_inode k2 r mode dev
    (some r, k3)

/-- Function `newfs_mknod` (lines 37-54). -/
def newfs_mknod (k : kernel) (dir dentry : Nat) (mode dev : Nat) : Int × kernel :=
  let (inode, k1) := newfs_get_inode k mode dev
  match inode with
  | none => (-ENOSPC, k1)
  | some ino =>
    let k2 :=
      if (k1.inode_at dir).i_mode &&& S_ISGID ≠ 0 then
        let k2a := k1.set_inode ino { k1.inode_at ino with i_gid := (k1.inode_at dir).i_gid }
        if S_ISDIR mode then
          k2a.set_inode ino { k2a.inode_at ino with i_mode := (k2a.inode_at ino).i_mode ||| S_ISGID }
        else k2a
      else k1
    let k3 := d_instantiate k2 dentry ino
    let k4 := dget k3 dentry
    let k5 := k4.set_inode dir { k4.inode_at dir with i_mtime := k4.now, i_ctime := k4.now }
    (0, k5)

/-- Function `newfs_mkdir` (lines 57-64). -/
def newfs_mkdir (k : kernel) (dir dentry : Nat) (mode : Nat) : Int × kernel :=
  let (retval, k1) := newfs_mknod k dir dentry (mode ||| S_IFDIR) 0
  if retval = 0 then (retval, inc_nlink k1 dir) else (retval, k1)

/-- Function `newfs_create` (lines 67-70); the `nameidata` argument is unused. -/
def newfs_create (k : kernel) (dir dentry : Nat) (mode : Nat) : Int × kernel :=
  newfs_mknod k dir dentry (mode ||| S_IFREG) 0

/-- Function `newfs_fill_super` (lines 131-147); `data` and `silent` are unused. -/
def newfs_fill_super (k : kernel) (sb : super_block) : Int × super_block × kernel :=
  let sb1 := { sb with
    s_magic := NEWFS_MAGIC,
    s_maxbytes := MAX_LFS_FILESIZE,
    s_blocksize := PAGE_CACHE_SIZE,
    s_op := .newfs_ops,
    s_time_gran := 1,
    s_blocksize_bits := PAGE_CACHE_SHIFT }
  let (inode, k1) := newfs_get_inode k (S_IFDIR ||| 0o755) 0
  let (root, k2) := d_alloc_root k1 inode
  (0, { sb1 with s_root := root }, k2)

/-! ## The host's name cache and the calls it makes into the module -/

/-- Host `d_lookup(parent, name)`: the cached dentry with this parent and name. -/
def d_lookup (k : kernel) (parent : Nat) (name : String) : Option Nat :=
  (k.dentries.map (fun d => (d.d_parent, d.d_name))).indexOf? (parent, name)

/-- The node found under `name` in the directory entry `parent`: the inode of
the cached dentry (`simple_lookup` itself only ever adds negative entries). -/
def lookup (k : kernel) (parent : Nat) (name : String) : Option Nat :=
  (d_lookup k parent name).bind (fun d => (k.dentry_at d).d_inode)

/-- Host `d_alloc(parent, name)`: a new negative dentry under `parent`, or NULL
when no dentry can be allocated. -/
def d_alloc (k : kernel) (parent : Nat) (name : String) : Option Nat × kernel :=
  if k.free_dentries = 0 then (none, k)
  else (some k.dentries.length,
        { k with
          dentries := k.dentries ++ [{ d_parent := parent, d_name := name, d_inode := none, d_count := 1 }],
          free_dentries := k.free_dentries - 1 })

/-- Host `lookup_create`: what the VFS does before it calls `create`, `mkdir`
or `mknod` of a directory.  The parent entry must exist and name a directory,
the name must not be taken; the result is the parent inode, a new negative
dentry for the name, and the heap holding it. -/
def lookup_create (k : kernel) (parent : Nat) (name : String) : Option (Nat × Nat × kernel) :=
  if parent < k.dentries.length then
    match (k.dentry_at parent).d_inode with
    | none => none
    | some dir =>
      if S_ISDIR (k.inode_at dir).i_mode && (d_lookup k parent name).isNone then
        match d_alloc k parent name with
        | (none, _) => none
        | (some dentry, k1) => some (dir, dentry, k1)
      else none
  else none

/-- One event on a mounted instance: a call into the module through the
directory operation table, or the host changing the caller's credentials, the
clock and the memory left for the allocators. -/
inductive vfs_call
  | create (parent : Nat) (name : String) (mode : Nat)
  | mkdir (parent : Nat) (name : String) (mode : Nat)
  | mknod (parent : Nat) (name : String) (mode dev : Nat)
  | env (fsuid fsgid now free_inodes free_dentries : Nat)
  deriving DecidableEq, Repr

/-- Runs one event; `none` when the host refuses the call or the module returns
an error. -/
def vfs_step (k : kernel) : vfs_call → Option kernel
  | .create parent name mode =>
    match lookup_create k parent name with
    | none => none
    | some (dir, dentry, k1) =>
      if (newfs_create k1 dir dentry mode).1 = 0 then some (newfs_create k1 dir dentry mode).2 else none
  | .mkdir parent name mode =>
    match lookup_create k parent name with
    | none => none
    | some (dir, dentry, k1) =>
      if (newfs_mkdir k1 dir dentry mode).1 = 0 then some (newfs_mkdir k1 dir dentry mode).2 else none
  | .mknod parent name mode dev =>
    match lookup_create k parent name with
    | none => none
    | some (dir, dentry, k1) =>
      if (newfs_mknod k1 dir dentry mode dev).1 = 0 then some (newfs_mknod k1 dir dentry mode dev).2 else none
  | .env fsuid fsgid now free_inodes free_dentries =>
    some { k with fsuid := fsuid, fsgid := fsgid, now := now,
                  free_inodes := free_inodes, free_dentries := free_dentries }

/-- Runs a sequence of events, all of which must succeed. -/
def vfs_run (k : kernel) : List vfs_call → Option kernel
  | [] => some k
  | c :: cs => (vfs_step k c).bind (fun k1 => vfs_run k1 cs)

/-- The modes the VFS itself passes: `vfs_mkdir` keeps only permission bits
before calling `mkdir`, and `sys_mknod` never forwards a directory mode to
`mknod`. -/
def vfs_call.mode_as_vfs : vfs_call → Bool
  | .create _ _ _ => true
  | .mkdir _ _ mode => S_ISDIR (mode ||| S_IFDIR)
  | .mknod _ _ mode _ => !S_ISDIR mode
  | .env _ _ _ _ _ => true

/-- Entry `j` is a subdirectory entry of directory inode `i`: it is not a root
entry, its parent entry names `i`, and its own inode is a directory. -/
def is_subdir_entry (k : kernel) (i j : Nat) : Bool :=
  (k.dentry_at j).d_parent != j &&
  ((k.dentry_at (k.dentry_at j).d_parent).d_inode == some i &&
   match (k.dentry_at j).d_inode with
   | some c => S_ISDIR (k.inode_at c).i_mode
   | none => false)

/-- Number of entries under inode `i` whose node is a directory. -/
def subdir_count (k : kernel) (i : Nat) : Nat :=
  (List.range k.dentries.length).countP (is_subdir_entry k i)

/-- Link-count invariant as an exact equation: every directory has the link
count of a new directory, 2, plus one per subdirectory entry. -/
def link_count_invariant (k : kernel) : Prop :=
  ∀ i, i < k.inodes.length → S_ISDIR (k.inode_at i).i_mode = true →
    (k.inode_at i).i_nlink = 2 + subdir_count k i

/-- Link-count invariant in 32-bit arithmetic. -/
def link_count_invariant32 (k : kernel) : Prop :=
  ∀ i, i < k.inodes.length → S_ISDIR (k.inode_at i).i_mode = true →
    (k.inode_at i).i_nlink = (2 + subdir_count k i) % 2 ^ 32

/-- Every pointer stored in a dentry points into the heaps. -/
def pointers_valid (k : kernel) : Prop :=
  ∀ j, j < k.dentries.length →
    (k.dentry_at j).d_parent < k.dentries.length ∧
    ∀ c, (k.dentry_at j).d_inode = some c → c < k.inodes.length

/-! ## Concrete states used in the examples -/

/-- A superblock before `newfs_fill_super` has run. -/
def blank_sb : super_block :=
  { s_magic := 0, s_maxbytes := 0, s_blocksize := 0, s_blocksize_bits := 0,
    s_time_gran := 0, s_op := .unset, s_root := none }

/-- A host with empty heaps, room for five inodes and five dentries, a caller
with fsuid 1000 and fsgid 100, at time 42. -/
def boot : kernel :=
  { inodes := [], dentries := [], free_inodes := 5, free_dentries := 5,
    fsuid := 1000, fsgid := 100, now := 42 }

/-- The host `boot` with the inode allocator exhausted. -/
def boot_no_memory : kernel := { boot with free_inodes := 0 }

/-- The state after mounting on `boot`: root inode 0 and root dentry 0. -/
def mounted : kernel := (newfs_fill_super boot blank_sb).2.2

/-- The mounted state with a negative dentry 1 named "f" under the root. -/
def mounted_with_entry : kernel := (d_alloc mounted 0 "f").2

/-- As `mounted_with_entry`, with the root directory set-group-id and owned by
group 5. -/
def setgid_root : kernel :=
  mounted_with_entry.set_inode 0
    { mounted_with_entry.inode_at 0 with i_mode := S_IFDIR ||| S_ISGID ||| 0o755, i_gid := 5 }

/-- As `mounted_with_entry`, with the root link count at the largest 32-bit
value. -/
def full_root : kernel :=
  mounted_with_entry.set_inode 0
    { mounted_with_entry.inode_at 0 with i_nlink := 2 ^ 32 - 1 }

/-- As `mounted_with_entry`, with the inode allocator exhausted. -/
def exhausted : kernel := { mounted_with_entry with free_inodes := 0 }

/-- A sequence of calls as the VFS makes them: two directories, a regular file
and a character device. -/
def example_calls : List vfs_call :=
  [ .mkdir 0 "d" 0o755, .create 0 "f" 0o644,
    .mknod 1 "null" (S_IFCHR ||| 0o666) 259, .mkdir 1 "e" 0o700 ]

/-- The state `example_calls` leads to from `mounted`. -/
def populated : kernel := (vfs_run mounted example_calls).getD mounted


/-! ## Lists and mode bits -/

theorem getD_append_last {α : Type} (l : List α) (a d : α) : (l ++ [a]).getD l.length d = a := by
  simp [List.getD_eq_getElem?_getD]

theorem getD_append_lt {α : Type} (l : List α) (a d : α) (i : Nat) (h : i < l.length) :
    (l ++ [a]).getD i d = l.getD i d := by
  simp [List.getD_eq_getElem?_getD, List.getElem?_append_left h]

theorem set_append_last {α : Type} (l : List α) (a v : α) : (l ++ [a]).set l.length v = l ++ [v] := by
  induction l with
  | nil => rfl
  | cons x xs ih => simp [ih]

theorem set_append_lt {α : Type} (l : List α) (a v : α) (i : Nat) (h : i < l.length) :
    (l ++ [a]).set i v = l.set i v ++ [a] := by
  induction l generalizing i with
  | nil => simp at h
  | cons x xs ih =>
    cases i with
    | zero => rfl
    | succ i => simp at h; simp [ih i h]

theorem getD_set_eq {α : Type} (l : List α) (v d : α) (i : Nat) (h : i < l.length) :
    (l.set i v).getD i d = v := by
  simp [List.getD_eq_getElem?_getD, List.getElem?_set, h]

theorem getD_set_ne {α : Type} (l : List α) (v d : α) (i j : Nat) (h : i ≠ j) :
    (l.set i v).getD j d = l.getD j d := by
  simp [List.getD_eq_getElem?_getD, List.getElem?_set, h]

theorem land_mod_kind (m : Nat) : (m % 2 ^ 16) &&& S_IFMT = m &&& S_IFMT := by
  have h : m % 2 ^ 16 = m &&& (2 ^ 16 - 1) := (Nat.and_pow_two_sub_one_eq_mod m 16).symm
  rw [h, Nat.and_assoc]
  rfl

theorem lor_sgid_kind (x : Nat) : (x ||| S_ISGID) &&& S_IFMT = x &&& S_IFMT := by
  rw [Nat.and_comm, Nat.and_or_distrib_left, Nat.and_comm]
  have : S_IFMT &&& S_ISGID = 0 := by decide
  rw [this, Nat.or_zero]

theorem lor_sgid_bit (x : Nat) : (x ||| S_ISGID) &&& S_ISGID ≠ 0 := by
  intro h
  have h1 : ((x ||| S_ISGID) &&& S_ISGID).testBit 10 = true := by
    simp only [Nat.testBit_and, Nat.testBit_or, S_ISGID]
    have : Nat.testBit 0o002000 10 = true := by decide
    simp [this]
  rw [h] at h1
  simp at h1

theorem lor_reg_not_dir (m : Nat) : (m ||| S_IFREG) &&& S_IFMT ≠ S_IFDIR := by
  intro h
  have h1 : ((m ||| S_IFREG) &&& S_IFMT).testBit 15 = true := by
    simp only [Nat.testBit_and, Nat.testBit_or, S_IFREG, S_IFMT]
    have h2 : Nat.testBit 0o100000 15 = true := by decide
    have h3 : Nat.testBit 0o170000 15 = true := by decide
    simp [h2, h3]
  rw [h] at h1
  revert h1
  decide

/-! ## What the module functions compute -/

theorem get_inode_ok (k : kernel) (mode dev : Nat) (h : k.free_inodes ≠ 0) :
    ∃ v : inode,
      newfs_get_inode k mode dev =
        (some k.inodes.length,
         { k with inodes := k.inodes ++ [v], free_inodes := k.free_inodes - 1 }) ∧
      v.i_mode = mode % 2 ^ 16 ∧ v.i_uid = k.fsuid ∧ v.i_gid = k.fsgid ∧
      v.i_nlink = (if mode &&& S_IFMT = S_IFDIR then 2 else 1) ∧
      v.i_op = (if mode &&& S_IFMT = S_IFREG then .simple_dir_inode_operations
                else if mode &&& S_IFMT = S_IFDIR then .newfs_dir_inode_operations
                else .empty_iops) ∧
      v.i_fop = (if mode &&& S_IFMT = S_IFREG then .newfs_file_operations
                 else if mode &&& S_IFMT = S_IFDIR then .simple_dir_operations
                 else if mode &&& S_IFMT = S_IFCHR then .def_chr_fops
                 else if mode &&& S_IFMT = S_IFBLK then .def_blk_fops
                 else if mode &&& S_IFMT = S_IFIFO then .def_fifo_fops
                 else if mode &&& S_IFMT = S_IFSOCK then .bad_sock_fops
                 else .empty_fops) := by
  unfold newfs_get_inode new_inode
  simp only [h, if_false]
  by_cases hr : mode &&& S_IFMT = S_IFREG
  · simp [hr, kernel.set_inode, kernel.inode_at, set_append_last, getD_append_last, blank_inode]
    decide
  · by_cases hd : mode &&& S_IFMT = S_IFDIR
    · have hne : S_IFDIR ≠ S_IFREG := by decide
      simp [hd, hne, inc_nlink, kernel.set_inode, kernel.inode_at, set_append_last,
        getD_append_last, blank_inode]
    · simp only [hr, hd, if_false, init_special_inode, S_ISCHR, S_ISBLK, S_ISFIFO, S_ISSOCK,
        beq_iff_eq]
      split_ifs <;>
        simp [kernel.set_inode, kernel.inode_at, set_append_last, getD_append_last, blank_inode]

theorem get_inode_fail (k : kernel) (mode dev : Nat) (h : k.free_inodes = 0) :
    newfs_get_inode k mode dev = (none, k) := by
  simp [newfs_get_inode, new_inode, h]

theorem set_set_getD {α : Type} (l : List α) (i : Nat) (a d : α) (f : α → α) :
    (l.set i a).set i (f ((l.set i a).getD i d)) = l.set i (f a) := by
  by_cases h : i < l.length
  · rw [getD_set_eq l a d i h, List.set_set]
  · rw [List.set_set, List.set_eq_of_length_le (by omega), List.set_eq_of_length_le (by omega)]

theorem dget_d_instantiate (k : kernel) (d ino : Nat) :
    dget (d_instantiate k d ino) d =
      k.set_dentry d { k.dentry_at d with
        d_inode := some ino, d_count := (k.dentry_at d).d_count + 1 } := by
  unfold dget d_instantiate kernel.set_dentry kernel.dentry_at
  by_cases h : d < k.dentries.length
  · simp only [getD_set_eq _ _ _ _ h, List.set_set]
  · simp only [List.set_eq_of_length_le (Nat.le_of_not_lt h)]

theorem mknod_ok (k : kernel) (dir dentry mode dev : Nat) (h : k.free_inodes ≠ 0)
    (hdir : dir < k.inodes.length) :
    ∃ v : inode,
      newfs_mknod k dir dentry mode dev =
        (0, { k with
              inodes := k.inodes.set dir
                  { k.inode_at dir with i_mtime := k.now, i_ctime := k.now } ++ [v],
              dentries := k.dentries.set dentry
                  { k.dentry_at dentry with
                    d_inode := some k.inodes.length,
                    d_count := (k.dentry_at dentry).d_count + 1 },
              free_inodes := k.free_inodes - 1 }) ∧
      v.i_mode = (if (k.inode_at dir).i_mode &&& S_ISGID ≠ 0 ∧ mode &&& S_IFMT = S_IFDIR
                  then mode % 2 ^ 16 ||| S_ISGID else mode % 2 ^ 16) ∧
      v.i_uid = k.fsuid ∧
      v.i_gid = (if (k.inode_at dir).i_mode &&& S_ISGID ≠ 0 then (k.inode_at dir).i_gid
                 else k.fsgid) ∧
      v.i_nlink = (if mode &&& S_IFMT = S_IFDIR then 2 else 1) := by
  obtain ⟨v0, he, hm, hu, hg, hn, -, -⟩ := get_inode_ok k mode dev h
  unfold newfs_mknod
  rw [he]
  simp only [dget_d_instantiate]
  by_cases hs : (k.inode_at dir).i_mode &&& S_ISGID ≠ 0
  · by_cases hk : mode &&& S_IFMT = S_IFDIR
    · simp only [kernel.inode_at, kernel.set_inode, kernel.dentry_at, kernel.set_dentry,
        S_ISDIR, getD_append_lt _ _ _ _ hdir, set_append_last,
        getD_append_last, set_append_lt _ _ _ _ hdir] at hs ⊢
      simp only [hs, hk, beq_self_eq_true, if_true, ne_eq, not_false_eq_true, and_self,
        set_append_last, getD_append_last, set_append_lt _ _ _ _ hdir,
        getD_append_lt _ _ _ _ hdir]
      exact ⟨_, rfl, by simp [hm], hu, rfl, by simp [hn, hk]⟩
    · simp only [kernel.inode_at, kernel.set_inode, kernel.dentry_at, kernel.set_dentry,
        S_ISDIR, getD_append_lt _ _ _ _ hdir, set_append_last,
        getD_append_last, set_append_lt _ _ _ _ hdir] at hs ⊢
      simp only [hs, hk, beq_iff_eq, if_true, if_false, ne_eq, not_false_eq_true, and_false,
        set_append_last, getD_append_last, set_append_lt _ _ _ _ hdir,
        getD_append_lt _ _ _ _ hdir]
      exact ⟨_, rfl, hm, hu, rfl, by simp [hn, hk]⟩
  · simp only [kernel.inode_at, kernel.set_inode, kernel.dentry_at, kernel.set_dentry,
      S_ISDIR, getD_append_lt _ _ _ _ hdir, set_append_last,
      getD_append_last, set_append_lt _ _ _ _ hdir] at hs ⊢
    simp only [hs, if_false, false_and, set_append_last, getD_append_last,
      set_append_lt _ _ _ _ hdir, getD_append_lt _ _ _ _ hdir]
    exact ⟨_, rfl, hm, hu, hg, hn⟩

theorem new_inode_none_iff (k : kernel) : (new_inode k).1 = none ↔ k.free_inodes = 0 := by
  unfold new_inode
  by_cases h : k.free_inodes = 0 <;> simp [h]

theorem mknod_fail (k : kernel) (dir dentry mode dev : Nat) (h : k.free_inodes = 0) :
    newfs_mknod k dir dentry mode dev = (-ENOSPC, k) := by
  simp [newfs_mknod, get_inode_fail k mode dev h]

theorem mknod_success_alloc (k : kernel) (dir dentry mode dev : Nat)
    (h : (newfs_mknod k dir dentry mode dev).1 = 0) : k.free_inodes ≠ 0 := by
  intro h0
  rw [mknod_fail k dir dentry mode dev h0] at h
  simp [ENOSPC] at h

theorem mkdir_success_alloc (k : kernel) (dir dentry mode : Nat)
    (h : (newfs_mkdir k dir dentry mode).1 = 0) : k.free_inodes ≠ 0 := by
  intro h0
  unfold newfs_mkdir at h
  rw [mknod_fail k dir dentry _ 0 h0] at h
  simp [ENOSPC] at h

theorem inc_nlink_after (kk : kernel) (l : List inode) (A v : inode) (dir : Nat)
    (hdir : dir < l.length) (hi : kk.inodes = l.set dir A ++ [v]) :
    inc_nlink kk dir =
      { kk with inodes := l.set dir { A with i_nlink := (A.i_nlink + 1) % 2 ^ 32 } ++ [v] } := by
  have hlen : dir < (l.set dir A).length := by simpa using hdir
  unfold inc_nlink kernel.set_inode kernel.inode_at
  rw [hi, getD_append_lt _ _ _ _ hlen, set_append_lt _ _ _ _ hlen, getD_set_eq _ _ _ _ hdir,
    List.set_set]

theorem mkdir_ok (k : kernel) (dir dentry mode : Nat) (h : k.free_inodes ≠ 0)
    (hdir : dir < k.inodes.length) :
    ∃ v : inode,
      newfs_mkdir k dir dentry mode =
        (0, { k with
              inodes := k.inodes.set dir
                  { k.inode_at dir with
                    i_mtime := k.now, i_ctime := k.now,
                    i_nlink := ((k.inode_at dir).i_nlink + 1) % 2 ^ 32 } ++ [v],
              dentries := k.dentries.set dentry
                  { k.dentry_at dentry with
                    d_inode := some k.inodes.length,
                    d_count := (k.dentry_at dentry).d_count + 1 },
              free_inodes := k.free_inodes - 1 }) ∧
      v.i_mode = (if (k.inode_at dir).i_mode &&& S_ISGID ≠ 0 ∧
                      (mode ||| S_IFDIR) &&& S_IFMT = S_IFDIR
                  then (mode ||| S_IFDIR) % 2 ^ 16 ||| S_ISGID else (mode ||| S_IFDIR) % 2 ^ 16) ∧
      v.i_uid = k.fsuid ∧
      v.i_gid = (if (k.inode_at dir).i_mode &&& S_ISGID ≠ 0 then (k.inode_at dir).i_gid
                 else k.fsgid) ∧
      v.i_nlink = (if (mode ||| S_IFDIR) &&& S_IFMT = S_IFDIR then 2 else 1) := by
  obtain ⟨v, he, hv⟩ := mknod_ok k dir dentry (mode ||| S_IFDIR) 0 h hdir
  refine ⟨v, ?_, hv⟩
  unfold newfs_mkdir
  rw [he]
  simp only [if_true]
  rw [inc_nlink_after _ k.inodes _ v dir hdir rfl]

theorem S_ISDIR_mod (m : Nat) : S_ISDIR (m % 2 ^ 16) = S_ISDIR m := by
  unfold S_ISDIR
  rw [land_mod_kind]

theorem S_ISDIR_sgid (x : Nat) : S_ISDIR (x ||| S_ISGID) = S_ISDIR x := by
  unfold S_ISDIR
  rw [lor_sgid_kind]

theorem S_ISDIR_iff (m : Nat) : S_ISDIR m = true ↔ m &&& S_IFMT = S_IFDIR := by
  simp [S_ISDIR]

theorem getD_set_append_last {α : Type} (l : List α) (i : Nat) (a v d : α) :
    (l.set i a ++ [v]).getD l.length d = v := by
  have h := getD_append_last (l.set i a) v d
  rwa [List.length_set] at h

theorem getD_set_append_self {α : Type} (l : List α) (i : Nat) (a v d : α) (h : i < l.length) :
    (l.set i a ++ [v]).getD i d = a := by
  rw [getD_append_lt _ _ _ _ (by simpa using h), getD_set_eq _ _ _ _ h]

theorem getD_set_append_other {α : Type} (l : List α) (i j : Nat) (a v d : α)
    (h : j < l.length) (hne : i ≠ j) :
    (l.set i a ++ [v]).getD j d = l.getD j d := by
  rw [getD_append_lt _ _ _ _ (by simpa using h), getD_set_ne _ _ _ _ _ hne]

/-- The node a successful `newfs_mknod` binds: its fields in terms of the request. -/
theorem mknod_node (k : kernel) (dir dentry mode dev : Nat) (h : k.free_inodes ≠ 0)
    (hdir : dir < k.inodes.length) :
    (newfs_mknod k dir dentry mode dev).1 = 0 ∧
    (dentry < k.dentries.length →
      ((newfs_mknod k dir dentry mode dev).2.dentry_at dentry).d_inode = some k.inodes.length) ∧
    ((newfs_mknod k dir dentry mode dev).2.inode_at k.inodes.length).i_mode =
      (if (k.inode_at dir).i_mode &&& S_ISGID ≠ 0 ∧ mode &&& S_IFMT = S_IFDIR
       then mode % 2 ^ 16 ||| S_ISGID else mode % 2 ^ 16) ∧
    ((newfs_mknod k dir dentry mode dev).2.inode_at k.inodes.length).i_uid = k.fsuid ∧
    ((newfs_mknod k dir dentry mode dev).2.inode_at k.inodes.length).i_gid =
      (if (k.inode_at dir).i_mode &&& S_ISGID ≠ 0 then (k.inode_at dir).i_gid else k.fsgid) ∧
    ((newfs_mknod k dir dentry mode dev).2.inode_at k.inodes.length).i_nlink =
      (if mode &&& S_IFMT = S_IFDIR then 2 else 1) := by
  obtain ⟨v, he, hm, hu, hg, hn⟩ := mknod_ok k dir dentry mode dev h hdir
  rw [he]
  refine ⟨rfl, ?_, ?_, ?_, ?_, ?_⟩
  · intro hden
    simp only [kernel.dentry_at, getD_set_eq _ _ _ _ hden]
  all_goals simp only [kernel.inode_at, getD_set_append_last]
  · exact hm
  · exact hu
  · exact hg
  · exact hn

theorem mkdir_node (k : kernel) (dir dentry mode : Nat) (h : k.free_inodes ≠ 0)
    (hdir : dir < k.inodes.length) :
    (newfs_mkdir k dir dentry mode).1 = 0 ∧
    (dentry < k.dentries.length →
      ((newfs_mkdir k dir dentry mode).2.dentry_at dentry).d_inode = some k.inodes.length) ∧
    ((newfs_mkdir k dir dentry mode).2.inode_at k.inodes.length).i_mode =
      (if (k.inode_at dir).i_mode &&& S_ISGID ≠ 0 ∧ (mode ||| S_IFDIR) &&& S_IFMT = S_IFDIR
       then (mode ||| S_IFDIR) % 2 ^ 16 ||| S_ISGID else (mode ||| S_IFDIR) % 2 ^ 16) ∧
    ((newfs_mkdir k dir dentry mode).2.inode_at k.inodes.length).i_gid =
      (if (k.inode_at dir).i_mode &&& S_ISGID ≠ 0 then (k.inode_at dir).i_gid else k.fsgid) ∧
    ((newfs_mkdir k dir dentry mode).2.inode_at dir).i_nlink =
      ((k.inode_at dir).i_nlink + 1) % 2 ^ 32 := by
  obtain ⟨v, he, hm, hu, hg, hn⟩ := mkdir_ok k dir dentry mode h hdir
  rw [he]
  refine ⟨rfl, ?_, ?_, ?_, ?_⟩
  · intro hden
    simp only [kernel.dentry_at, getD_set_eq _ _ _ _ hden]
  · simp only [kernel.inode_at, getD_set_append_last]
    exact hm
  · simp only [kernel.inode_at, getD_set_append_last]
    exact hg
  · simp only [kernel.inode_at, getD_set_append_self _ _ _ _ _ hdir]

/-- A set-group-id parent hands its group, and for directories the bit, to the new node. -/
theorem sgid_node_ok (c : Prop) [Decidable c] (hc : c) (m g pg : Nat) (i_mode i_gid : Nat)
    (hm : i_mode = if c ∧ m &&& S_IFMT = S_IFDIR then m % 2 ^ 16 ||| S_ISGID else m % 2 ^ 16)
    (hg : i_gid = if c then pg else g) :
    i_gid = pg ∧ (S_ISDIR i_mode = true → i_mode &&& S_ISGID ≠ 0) := by
  rw [if_pos hc] at hg
  refine ⟨hg, ?_⟩
  intro hd
  by_cases hk : m &&& S_IFMT = S_IFDIR
  · rw [if_pos ⟨hc, hk⟩] at hm
    rw [hm]
    exact lor_sgid_bit _
  · rw [if_neg (fun h => hk h.2)] at hm
    rw [hm, S_ISDIR_mod, S_ISDIR_iff] at hd
    exact absurd hd hk

/-! ## Creation under a parent directory -/

/-- C2. Under a parent whose mode has the set-group-id bit, every successful
`newfs_mknod`, `newfs_create` and `newfs_mkdir` binds the entry to a node whose
group is the parent's group, and when that node is a directory its mode has the
set-group-id bit. -/
theorem setgid_parent_is_inherited (k : kernel) (dir dentry mode dev : Nat)
    (hdir : dir < k.inodes.length) (hden : dentry < k.dentries.length)
    (hsgid : (k.inode_at dir).i_mode &&& S_ISGID ≠ 0) :
    ((newfs_mknod k dir dentry mode dev).1 = 0 →
      ∃ ino, ((newfs_mknod k dir dentry mode dev).2.dentry_at dentry).d_inode = some ino ∧
        ((newfs_mknod k dir dentry mode dev).2.inode_at ino).i_gid = (k.inode_at dir).i_gid ∧
        (S_ISDIR ((newfs_mknod k dir dentry mode dev).2.inode_at ino).i_mode = true →
          ((newfs_mknod k dir dentry mode dev).2.inode_at ino).i_mode &&& S_ISGID ≠ 0)) ∧
    ((newfs_create k dir dentry mode).1 = 0 →
      ∃ ino, ((newfs_create k dir dentry mode).2.dentry_at dentry).d_inode = some ino ∧
        ((newfs_create k dir dentry mode).2.inode_at ino).i_gid = (k.inode_at dir).i_gid ∧
        (S_ISDIR ((newfs_create k dir dentry mode).2.inode_at ino).i_mode = true →
          ((newfs_create k dir dentry mode).2.inode_at ino).i_mode &&& S_ISGID ≠ 0)) ∧
    ((newfs_mkdir k dir dentry mode).1 = 0 →
      ∃ ino, ((newfs_mkdir k dir dentry mode).2.dentry_at dentry).d_inode = some ino ∧
        ((newfs_mkdir k dir dentry mode).2.inode_at ino).i_gid = (k.inode_at dir).i_gid ∧
        (S_ISDIR ((newfs_mkdir k dir dentry mode).2.inode_at ino).i_mode = true →
          ((newfs_mkdir k dir dentry mode).2.inode_at ino).i_mode &&& S_ISGID ≠ 0)) := by
  refine ⟨?_, ?_, ?_⟩
  · intro hok
    obtain ⟨-, hb, hm, -, hg, -⟩ :=
      mknod_node k dir dentry mode dev (mknod_success_alloc k dir dentry mode dev hok) hdir
    exact ⟨_, hb hden, sgid_node_ok _ hsgid mode k.fsgid _ _ _ hm hg⟩
  · intro hok
    unfold newfs_create at hok ⊢
    obtain ⟨-, hb, hm, -, hg, -⟩ :=
      mknod_node k dir dentry (mode ||| S_IFREG) 0 (mknod_success_alloc k dir dentry _ 0 hok) hdir
    exact ⟨_, hb hden, sgid_node_ok _ hsgid _ k.fsgid _ _ _ hm hg⟩
  · intro hok
    obtain ⟨-, hb, hm, hg, -⟩ :=
      mkdir_node k dir dentry mode (mkdir_success_alloc k dir dentry mode hok) hdir
    exact ⟨_, hb hden, sgid_node_ok _ hsgid _ k.fsgid _ _ _ hm hg⟩

/-- Witness for C2: a directory made under the set-group-id root of `setgid_root`. -/
theorem setgid_parent_is_inherited_witness :
    (setgid_root.inode_at 0).i_mode &&& S_ISGID ≠ 0 ∧
    (newfs_mkdir setgid_root 0 1 0o755).1 = 0 ∧
    ∃ ino, ((newfs_mkdir setgid_root 0 1 0o755).2.dentry_at 1).d_inode = some ino ∧
      ((newfs_mkdir setgid_root 0 1 0o755).2.inode_at ino).i_gid = (setgid_root.inode_at 0).i_gid ∧
      (S_ISDIR ((newfs_mkdir setgid_root 0 1 0o755).2.inode_at ino).i_mode = true →
        ((newfs_mkdir setgid_root 0 1 0o755).2.inode_at ino).i_mode &&& S_ISGID ≠ 0) :=
  ⟨by decide, by decide,
    (setgid_parent_is_inherited setgid_root 0 1 0o755 0 (by decide) (by decide) (by decide)).2.2
      (by decide)⟩

/-- C3 as stated fails where the parent's link count is 2^32 - 1: `newfs_mkdir`
on the root of `full_root` succeeds and leaves the 32-bit count at 0, not one
higher. -/
theorem mkdir_max_link_count_not_one_higher :
    (full_root.inode_at 0).i_nlink = 4294967295 ∧
    (newfs_mkdir full_root 0 1 0o755).1 = 0 ∧
    ((newfs_mkdir full_root 0 1 0o755).2.inode_at 0).i_nlink = 0 ∧
    ((newfs_mkdir full_root 0 1 0o755).2.inode_at 0).i_nlink ≠
      (full_root.inode_at 0).i_nlink + 1 := by
  decide

/-- C3 (amended). A successful `newfs_mkdir` under a parent whose link count is
below the largest 32-bit value leaves the parent's link count exactly one higher
than before the call. -/
theorem mkdir_increments_parent (k : kernel) (dir dentry mode : Nat)
    (hdir : dir < k.inodes.length)
    (hok : (newfs_mkdir k dir dentry mode).1 = 0)
    (hroom : (k.inode_at dir).i_nlink < 2 ^ 32 - 1) :
    ((newfs_mkdir k dir dentry mode).2.inode_at dir).i_nlink = (k.inode_at dir).i_nlink + 1 := by
  obtain ⟨-, -, -, -, hn⟩ :=
    mkdir_node k dir dentry mode (mkdir_success_alloc k dir dentry mode hok) hdir
  rw [hn]
  exact Nat.mod_eq_of_lt (by omega)

/-- Witness for C3: `mkdir` of "d" with mode 0755 on the freshly mounted root
takes the root's link count from 2 to 3. -/
theorem mkdir_increments_parent_witness :
    (mounted_with_entry.inode_at 0).i_nlink = 2 ∧
    (newfs_mkdir mounted_with_entry 0 1 0o755).1 = 0 ∧
    ((newfs_mkdir mounted_with_entry 0 1 0o755).2.inode_at 0).i_nlink = 3 :=
  ⟨by decide, by decide,
    mkdir_increments_parent mounted_with_entry 0 1 0o755 (by decide) (by decide) (by decide)⟩

/-- C4. When the host cannot allocate an inode, `newfs_mknod`, `newfs_create`
and `newfs_mkdir` each return `-ENOSPC` and leave the whole state as it was: the
entry stays unbound with its reference count untouched, and the parent keeps its
timestamps and link count. -/
theorem alloc_failure_changes_nothing (k : kernel) (dir dentry mode dev : Nat)
    (hfail : (new_inode k).1 = none) :
    newfs_mknod k dir dentry mode dev = (-ENOSPC, k) ∧
    newfs_create k dir dentry mode = (-ENOSPC, k) ∧
    newfs_mkdir k dir dentry mode = (-ENOSPC, k) := by
  have h0 : k.free_inodes = 0 := (new_inode_none_iff k).mp hfail
  refine ⟨mknod_fail k dir dentry mode dev h0, ?_, ?_⟩
  · unfold newfs_create
    exact mknod_fail k dir dentry _ 0 h0
  · unfold newfs_mkdir
    rw [mknod_fail k dir dentry _ 0 h0]
    simp [ENOSPC]

/-- Witness for C4: the three calls on `exhausted`, whose allocator is empty. -/
theorem alloc_failure_changes_nothing_witness :
    (new_inode exhausted).1 = none ∧
    newfs_mknod exhausted 0 1 (S_IFCHR ||| 0o600) 7 = (-28, exhausted) ∧
    newfs_create exhausted 0 1 (S_IFCHR ||| 0o600) = (-28, exhausted) ∧
    newfs_mkdir exhausted 0 1 (S_IFCHR ||| 0o600) = (-28, exhausted) :=
  ⟨by decide, alloc_failure_changes_nothing exhausted 0 1 (S_IFCHR ||| 0o600) 7 (by decide)⟩

/-- C5 as stated fails: on the root of `full_root`, whose link count is the
largest 32-bit value, `newfs_mkdir` returns 0, binds the entry to the new
directory and changes the parent's link count. -/
theorem mkdir_overflow_is_not_rejected :
    (full_root.inode_at 0).i_nlink = 2 ^ 32 - 1 ∧
    (newfs_mkdir full_root 0 1 0o755).1 = 0 ∧
    ((newfs_mkdir full_root 0 1 0o755).2.dentry_at 1).d_inode = some 1 ∧
    (newfs_mkdir full_root 0 1 0o755).2.inode_at 0 ≠ full_root.inode_at 0 := by
  decide

/-- C5 (amended). `newfs_mkdir` has no overflow check: under a parent whose link
count is the largest 32-bit value it succeeds whenever an inode can be
allocated, binds the entry to the new node, and the parent's link count wraps
to 0. -/
theorem mkdir_at_max_link_count_wraps (k : kernel) (dir dentry mode : Nat)
    (halloc : (new_inode k).1 ≠ none)
    (hdir : dir < k.inodes.length) (hden : dentry < k.dentries.length)
    (hmax : (k.inode_at dir).i_nlink = 2 ^ 32 - 1) :
    (newfs_mkdir k dir dentry mode).1 = 0 ∧
    ((newfs_mkdir k dir dentry mode).2.dentry_at dentry).d_inode = some k.inodes.length ∧
    ((newfs_mkdir k dir dentry mode).2.inode_at dir).i_nlink = 0 := by
  have h0 : k.free_inodes ≠ 0 := fun h => halloc ((new_inode_none_iff k).mpr h)
  obtain ⟨hr, hb, -, -, hn⟩ := mkdir_node k dir dentry mode h0 hdir
  refine ⟨hr, hb hden, ?_⟩
  rw [hn, hmax]
  rfl

/-- Witness for C5 (amended), on the root of `full_root`. -/
theorem mkdir_at_max_link_count_wraps_witness :
    (full_root.inode_at 0).i_nlink = 2 ^ 32 - 1 ∧
    (newfs_mkdir full_root 0 1 0o700).1 = 0 ∧
    ((newfs_mkdir full_root 0 1 0o700).2.dentry_at 1).d_inode = some full_root.inodes.length ∧
    ((newfs_mkdir full_root 0 1 0o700).2.inode_at 0).i_nlink = 0 :=
  ⟨by decide,
    mkdir_at_max_link_count_wraps full_root 0 1 0o700 (by decide) (by decide) (by decide)
      (by decide)⟩

theorem map_set_same_key {α β : Type} (f : α → β) (l : List α) (i : Nat) (v d : α)
    (hv : f v = f (l.getD i d)) : (l.set i v).map f = l.map f := by
  induction l generalizing i with
  | nil => rfl
  | cons x xs ih =>
    cases i with
    | zero =>
      simp only [List.set_cons_zero, List.map_cons, List.getD_cons_zero] at hv ⊢
      rw [hv]
    | succ i =>
      simp only [List.set_cons_succ, List.map_cons, List.getD_cons_succ] at hv ⊢
      rw [ih i hv]

theorem mknod_keeps_names (k : kernel) (dir dentry mode dev : Nat) (h : k.free_inodes ≠ 0)
    (hdir : dir < k.inodes.length) :
    (newfs_mknod k dir dentry mode dev).2.dentries.map (fun d => (d.d_parent, d.d_name)) =
      k.dentries.map (fun d => (d.d_parent, d.d_name)) := by
  obtain ⟨v, he, -⟩ := mknod_ok k dir dentry mode dev h hdir
  rw [he]
  exact map_set_same_key _ _ _ _ blank_dentry rfl

theorem d_lookup_lt (k : kernel) (parent : Nat) (name : String) (d : Nat)
    (h : d_lookup k parent name = some d) : d < k.dentries.length := by
  unfold d_lookup List.indexOf? at h
  obtain ⟨hlt, -⟩ := List.findIdx?_eq_some_iff_getElem.mp h
  simpa using hlt

/-- C1 as stated fails.  Under the set-group-id root of `setgid_root` (group 5,
caller's fsgid 100) `newfs_create` with mode 0644 binds a node whose group is 5,
not the caller's fsgid; and with a mode that carries directory type bits the
node bound is not a regular file. -/
theorem create_group_not_always_fsgid :
    (newfs_create setgid_root 0 1 0o644).1 = 0 ∧
    lookup (newfs_create setgid_root 0 1 0o644).2 0 "f" = some 1 ∧
    ((newfs_create setgid_root 0 1 0o644).2.inode_at 1).i_gid = 5 ∧
    ((newfs_create setgid_root 0 1 0o644).2.inode_at 1).i_gid ≠ setgid_root.fsgid ∧
    lookup (newfs_create setgid_root 0 1 (S_IFDIR ||| 0o644)).2 0 "f" = some 1 ∧
    S_ISREG ((newfs_create setgid_root 0 1 (S_IFDIR ||| 0o644)).2.inode_at 1).i_mode = false := by
  decide

/-- C1 (amended). For every parent directory, cached entry and mode whose
file-type bits are empty or those of a regular file, when the inode allocation
succeeds `newfs_create` returns 0 and the node then found under the entry's name
is a regular file with mode `mode | S_IFREG`, owned by the caller's fsuid, and
with group the caller's fsgid, or the parent's group when the parent has the
set-group-id bit. -/
theorem create_then_lookup (k : kernel) (dir dentry mode : Nat)
    (halloc : (new_inode k).1 ≠ none)
    (hdir : dir < k.inodes.length)
    (hcached : d_lookup k (k.dentry_at dentry).d_parent (k.dentry_at dentry).d_name = some dentry)
    (hmode : (mode ||| S_IFREG) &&& S_IFMT = S_IFREG) :
    (newfs_create k dir dentry mode).1 = 0 ∧
    ∃ ino,
      lookup (newfs_create k dir dentry mode).2
        (k.dentry_at dentry).d_parent (k.dentry_at dentry).d_name = some ino ∧
      S_ISREG ((newfs_create k dir dentry mode).2.inode_at ino).i_mode = true ∧
      ((newfs_create k dir dentry mode).2.inode_at ino).i_mode = (mode ||| S_IFREG) % 2 ^ 16 ∧
      ((newfs_create k dir dentry mode).2.inode_at ino).i_uid = k.fsuid ∧
      ((newfs_create k dir dentry mode).2.inode_at ino).i_gid =
        (if (k.inode_at dir).i_mode &&& S_ISGID ≠ 0 then (k.inode_at dir).i_gid else k.fsgid) := by
  have h0 : k.free_inodes ≠ 0 := fun h => halloc ((new_inode_none_iff k).mpr h)
  have hden : dentry < k.dentries.length := d_lookup_lt k _ _ _ hcached
  have hnd : ¬ ((mode ||| S_IFREG) &&& S_IFMT = S_IFDIR) := lor_reg_not_dir mode
  unfold newfs_create
  obtain ⟨hr, hb, hm, hu, hg, -⟩ := mknod_node k dir dentry (mode ||| S_IFREG) 0 h0 hdir
  have hkeys := mknod_keeps_names k dir dentry (mode ||| S_IFREG) 0 h0 hdir
  rw [if_neg (fun h => hnd h.2)] at hm
  refine ⟨hr, k.inodes.length, ?_, ?_, hm, hu, hg⟩
  · unfold lookup d_lookup
    rw [hkeys]
    unfold d_lookup at hcached
    rw [hcached]
    exact hb hden
  · rw [hm]
    unfold S_ISREG
    rw [land_mod_kind, hmode]
    simp

/-- Witness for C1 (amended): `create` of "f" with mode 0644 on the mounted root. -/
theorem create_then_lookup_witness :
    (newfs_create mounted_with_entry 0 1 0o644).1 = 0 ∧
    ∃ ino,
      lookup (newfs_create mounted_with_entry 0 1 0o644).2 0 "f" = some ino ∧
      S_ISREG ((newfs_create mounted_with_entry 0 1 0o644).2.inode_at ino).i_mode = true ∧
      ((newfs_create mounted_with_entry 0 1 0o644).2.inode_at ino).i_mode = S_IFREG ||| 0o644 ∧
      ((newfs_create mounted_with_entry 0 1 0o644).2.inode_at ino).i_uid = 1000 ∧
      ((newfs_create mounted_with_entry 0 1 0o644).2.inode_at ino).i_gid = 100 :=
  create_then_lookup mounted_with_entry 0 1 0o644 (by decide) (by decide) (by decide) (by decide)

/-- C8 as stated fails: the regular node `newfs_get_inode` returns has link
count 1, and the directory node has link count 2. -/
theorem get_inode_link_count_not_zero :
    (newfs_get_inode boot (S_IFREG ||| 0o644) 0).1 = some 0 ∧
    S_ISREG ((newfs_get_inode boot (S_IFREG ||| 0o644) 0).2.inode_at 0).i_mode = true ∧
    ((newfs_get_inode boot (S_IFREG ||| 0o644) 0).2.inode_at 0).i_nlink = 1 ∧
    (newfs_get_inode boot (S_IFDIR ||| 0o755) 0).1 = some 0 ∧
    S_ISDIR ((newfs_get_inode boot (S_IFDIR ||| 0o755) 0).2.inode_at 0).i_mode = true ∧
    ((newfs_get_inode boot (S_IFDIR ||| 0o755) 0).2.inode_at 0).i_nlink = 2 := by
  decide

/-- C8 (amended). Whenever the host allocates an inode, the node returned by
`newfs_get_inode` has link count 2 when its kind is directory and link count 1
for every other kind; and the node bound by `newfs_create` with mode 0644 is a
regular file with link count 1. -/
theorem new_node_link_count (k : kernel) (mode dev : Nat) (halloc : (new_inode k).1 ≠ none) :
    (∃ ino, (newfs_get_inode k mode dev).1 = some ino ∧
      (S_ISDIR ((newfs_get_inode k mode dev).2.inode_at ino).i_mode = true →
        ((newfs_get_inode k mode dev).2.inode_at ino).i_nlink = 2) ∧
      (S_ISDIR ((newfs_get_inode k mode dev).2.inode_at ino).i_mode = false →
        ((newfs_get_inode k mode dev).2.inode_at ino).i_nlink = 1)) ∧
    (∀ dir dentry, dir < k.inodes.length → dentry < k.dentries.length →
      ∃ ino, ((newfs_create k dir dentry 0o644).2.dentry_at dentry).d_inode = some ino ∧
        S_ISREG ((newfs_create k dir dentry 0o644).2.inode_at ino).i_mode = true ∧
        ((newfs_create k dir dentry 0o644).2.inode_at ino).i_nlink = 1) := by
  have h0 : k.free_inodes ≠ 0 := fun h => halloc ((new_inode_none_iff k).mpr h)
  constructor
  · obtain ⟨v, he, hm, -, -, hn, -, -⟩ := get_inode_ok k mode dev h0
    rw [he]
    refine ⟨_, rfl, ?_, ?_⟩
    · simp only [kernel.inode_at, getD_append_last, hm, S_ISDIR_mod, S_ISDIR_iff]
      intro hk
      rw [hn, if_pos hk]
    · simp only [kernel.inode_at, getD_append_last, hm, S_ISDIR_mod]
      intro hk
      have hk2 : ¬ (mode &&& S_IFMT = S_IFDIR) := by
        intro hc
        rw [(S_ISDIR_iff mode).mpr hc] at hk
        exact Bool.noConfusion hk
      rw [hn, if_neg hk2]
  · intro dir dentry hdir hden
    unfold newfs_create
    obtain ⟨-, hb, hm, -, -, hn⟩ := mknod_node k dir dentry (0o644 ||| S_IFREG) 0 h0 hdir
    have hnd : ¬ ((0o644 ||| S_IFREG) &&& S_IFMT = S_IFDIR) := by decide
    rw [if_neg (fun h => hnd h.2)] at hm
    rw [if_neg hnd] at hn
    refine ⟨_, hb hden, ?_, hn⟩
    rw [hm]
    decide

/-- Witness for C8 (amended): a character-device node allocated on `boot`. -/
theorem new_node_link_count_witness :
    (new_inode boot).1 ≠ none ∧
    S_ISDIR ((newfs_get_inode boot (S_IFCHR ||| 0o600) 3).2.inode_at 0).i_mode = false ∧
    ((newfs_get_inode boot (S_IFCHR ||| 0o600) 3).2.inode_at 0).i_nlink = 1 :=
  ⟨by decide, by decide,
    by
      obtain ⟨ino, h1, -, h3⟩ := (new_node_link_count boot (S_IFCHR ||| 0o600) 3 (by decide)).1
      have hi : ino = 0 := by
        have h4 : (newfs_get_inode boot (S_IFCHR ||| 0o600) 3).1 = some 0 := by decide
        rw [h4] at h1
        exact (Option.some.inj h1).symm
      subst hi
      exact h3 (by decide)⟩

/-! ## Mount and operation dispatch -/

theorem get_inode_special (k : kernel) (mode dev : Nat) (h : k.free_inodes ≠ 0)
    (hr : mode &&& S_IFMT ≠ S_IFREG) (hd : mode &&& S_IFMT ≠ S_IFDIR) :
    ∃ kb, (newfs_get_inode k mode dev).2 = init_special_inode kb k.inodes.length mode dev ∧
      (kb.inode_at k.inodes.length).i_op = .empty_iops ∧
      (kb.inode_at k.inodes.length).i_fop = .empty_fops := by
  unfold newfs_get_inode new_inode
  simp only [h, if_false, hr, hd]
  refine ⟨_, rfl, ?_, ?_⟩ <;>
    simp only [kernel.inode_at, kernel.set_inode, set_append_last, getD_append_last] <;> rfl

/-- C6: the code returns success from `newfs_fill_super` although the root inode
could not be allocated.  On `boot_no_memory` the host allocator returns NULL,
yet the function returns 0 and leaves the superblock with a NULL root. -/
theorem fill_super_succeeds_without_root :
    (new_inode boot_no_memory).1 = none ∧
    (newfs_fill_super boot_no_memory blank_sb).1 = 0 ∧
    (newfs_fill_super boot_no_memory blank_sb).2.1.s_root = none := by
  decide

/-- C7: a `newfs_fill_super` that returns 0 need not have a root node.  On
`boot_no_memory` it returns 0 with the magic set, but no inode and no dentry
exist afterwards, so there is no root directory with the listed attributes. -/
theorem fill_super_success_has_no_root_node :
    (newfs_fill_super boot_no_memory blank_sb).1 = 0 ∧
    (newfs_fill_super boot_no_memory blank_sb).2.1.s_magic = 0x06376786 ∧
    (newfs_fill_super boot_no_memory blank_sb).2.2.inodes = [] ∧
    (newfs_fill_super boot_no_memory blank_sb).2.2.dentries = [] := by
  decide

/-- Root attributes after a mount whose two allocations succeed: the superblock
carries the magic and its root dentry names a directory inode with mode
`S_IFDIR | 0755`, link count 2, the caller's fsuid and fsgid, and the directory
operation tables. -/
theorem fill_super_root_attributes (k : kernel) (sb : super_block)
    (hi : k.free_inodes ≠ 0) (hd : k.free_dentries ≠ 0) :
    (newfs_fill_super k sb).1 = 0 ∧
    (newfs_fill_super k sb).2.1.s_magic = 0x06376786 ∧
    (newfs_fill_super k sb).2.1.s_root = some k.dentries.length ∧
    ((newfs_fill_super k sb).2.2.dentry_at k.dentries.length).d_inode = some k.inodes.length ∧
    ((newfs_fill_super k sb).2.2.dentry_at k.dentries.length).d_parent = k.dentries.length ∧
    ((newfs_fill_super k sb).2.2.inode_at k.inodes.length).i_mode = S_IFDIR ||| 0o755 ∧
    ((newfs_fill_super k sb).2.2.inode_at k.inodes.length).i_nlink = 2 ∧
    ((newfs_fill_super k sb).2.2.inode_at k.inodes.length).i_uid = k.fsuid ∧
    ((newfs_fill_super k sb).2.2.inode_at k.inodes.length).i_gid = k.fsgid ∧
    ((newfs_fill_super k sb).2.2.inode_at k.inodes.length).i_op = .newfs_dir_inode_operations ∧
    ((newfs_fill_super k sb).2.2.inode_at k.inodes.length).i_fop = .simple_dir_operations := by
  obtain ⟨v, he, hm, hu, hg, hn, ho, hf⟩ := get_inode_ok k (S_IFDIR ||| 0o755) 0 hi
  have hk : (S_IFDIR ||| 0o755) &&& S_IFMT = S_IFDIR := by decide
  have hne : S_IFDIR ≠ S_IFREG := by decide
  unfold newfs_fill_super
  rw [he]
  simp only [d_alloc_root, hd, if_false, kernel.dentry_at, kernel.inode_at, getD_append_last]
  simp only [hk, hne, if_true, if_false] at hn ho hf
  refine ⟨?_, ?_, ?_, ?_, ?_, hm, hn, hu, hg, ho, hf⟩ <;> trivial

/-- C10. Given an inode from the host, `newfs_get_inode` never fails, and the
operation tables it installs depend on `mode & S_IFMT` alone: a regular file
gets `newfs_file_operations` (read, write, mmap, fsync, llseek, splice read;
its `i_op` is the host's `simple_dir_inode_operations`), a directory gets `newfs_dir_inode_operations` (exactly create, mknod, lookup,
unlink, rmdir, mkdir, rename) and the default directory file operations, and
every other kind is passed to `init_special_inode` with the given device. -/
theorem ops_dispatch_by_kind (k : kernel) (mode dev : Nat) (halloc : (new_inode k).1 ≠ none) :
    ∃ ino, (newfs_get_inode k mode dev).1 = some ino ∧
      (mode &&& S_IFMT = S_IFREG →
        ((newfs_get_inode k mode dev).2.inode_at ino).i_fop = .newfs_file_operations ∧
        ((newfs_get_inode k mode dev).2.inode_at ino).i_op = .simple_dir_inode_operations) ∧
      (mode &&& S_IFMT = S_IFDIR →
        ((newfs_get_inode k mode dev).2.inode_at ino).i_op = .newfs_dir_inode_operations ∧
        ((newfs_get_inode k mode dev).2.inode_at ino).i_fop = .simple_dir_operations) ∧
      (mode &&& S_IFMT ≠ S_IFREG → mode &&& S_IFMT ≠ S_IFDIR →
        ∃ kb, (newfs_get_inode k mode dev).2 = init_special_inode kb ino mode dev ∧
          (kb.inode_at ino).i_op = .empty_iops ∧ (kb.inode_at ino).i_fop = .empty_fops) ∧
      (∀ k2 mode2 dev2, (new_inode k2).1 ≠ none → mode2 &&& S_IFMT = mode &&& S_IFMT →
        ∃ ino2, (newfs_get_inode k2 mode2 dev2).1 = some ino2 ∧
          ((newfs_get_inode k2 mode2 dev2).2.inode_at ino2).i_op =
            ((newfs_get_inode k mode dev).2.inode_at ino).i_op ∧
          ((newfs_get_inode k2 mode2 dev2).2.inode_at ino2).i_fop =
            ((newfs_get_inode k mode dev).2.inode_at ino).i_fop) ∧
      newfs_file_operations.map Prod.fst =
        [.read, .aio_read, .write, .aio_write, .mmap, .fsync, .llseek, .splice_read] ∧
      (∀ s, s ∈ newfs_dir_inode_operations.map Prod.fst ↔
        s ∈ [iop_slot.create, .mknod, .lookup, .unlink, .rmdir, .mkdir, .rename]) := by
  have h0 : k.free_inodes ≠ 0 := fun h => halloc ((new_inode_none_iff k).mpr h)
  have hsp := get_inode_special k mode dev h0
  obtain ⟨v, he, -, -, -, -, ho, hf⟩ := get_inode_ok k mode dev h0
  rw [he] at hsp ⊢
  refine ⟨_, rfl, ?_, ?_, hsp, ?_, rfl, ?_⟩
  · intro hk
    simp only [kernel.inode_at, getD_append_last]
    rw [hf, ho, if_pos hk, if_pos hk]
    exact ⟨rfl, rfl⟩
  · intro hk
    have hne : ¬ (mode &&& S_IFMT = S_IFREG) := by
      rw [hk]
      decide
    simp only [kernel.inode_at, getD_append_last]
    rw [ho, hf, if_neg hne, if_pos hk, if_neg hne, if_pos hk]
    exact ⟨rfl, rfl⟩
  · intro k2 mode2 dev2 halloc2 hkind
    have h2 : k2.free_inodes ≠ 0 := fun h => halloc2 ((new_inode_none_iff k2).mpr h)
    obtain ⟨v2, he2, -, -, -, -, ho2, hf2⟩ := get_inode_ok k2 mode2 dev2 h2
    rw [he2]
    refine ⟨_, rfl, ?_, ?_⟩
    · simp only [kernel.inode_at, getD_append_last]
      rw [ho2, ho, hkind]
    · simp only [kernel.inode_at, getD_append_last]
      rw [hf2, hf, hkind]
  · intro s
    cases s <;> decide

/-- Witness for C10: a block-device node allocated on `boot`. -/
theorem ops_dispatch_by_kind_witness :
    (new_inode boot).1 ≠ none ∧
    ∃ ino, (newfs_get_inode boot (S_IFBLK ||| 0o660) 9).1 = some ino ∧
      ∃ kb, (newfs_get_inode boot (S_IFBLK ||| 0o660) 9).2 =
          init_special_inode kb ino (S_IFBLK ||| 0o660) 9 ∧
        (kb.inode_at ino).i_op = .empty_iops ∧ (kb.inode_at ino).i_fop = .empty_fops :=
  ⟨by decide,
    by
      obtain ⟨ino, h1, -, -, h4, -⟩ := ops_dispatch_by_kind boot (S_IFBLK ||| 0o660) 9 (by decide)
      exact ⟨ino, h1, h4 (by decide) (by decide)⟩⟩

/-! ## The directory link-count invariant -/

theorem isdir_new_node (c : Prop) [Decidable c] (m i_mode : Nat)
    (hm : i_mode = if c ∧ m &&& S_IFMT = S_IFDIR then m % 2 ^ 16 ||| S_ISGID else m % 2 ^ 16) :
    S_ISDIR i_mode = S_ISDIR m := by
  rw [hm]
  split
  · rw [S_ISDIR_sgid, S_ISDIR_mod]
  · rw [S_ISDIR_mod]

theorem subdir_count_grow (k k2 : kernel) (i : Nat)
    (hlen : k2.dentries.length = k.dentries.length + 1)
    (hold : ∀ j, j < k.dentries.length → is_subdir_entry k2 i j = is_subdir_entry k i j) :
    subdir_count k2 i =
      subdir_count k i + (if is_subdir_entry k2 i k.dentries.length = true then 1 else 0) := by
  unfold subdir_count
  rw [hlen, List.range_succ, List.countP_append]
  congr 1
  · apply List.countP_congr
    intro j hj
    rw [hold j (List.mem_range.mp hj)]
  · simp [List.countP_cons]

/-- Growing the heaps by one node and one entry under `dir` keeps the pointers
valid and the 32-bit link-count invariant. -/
theorem grow_preserves (k k2 : kernel) (parent dir : Nat) (D v : inode) (nd : dentry)
    (hpv : pointers_valid k) (hinv : link_count_invariant32 k)
    (hp : parent < k.dentries.length) (hpi : (k.dentry_at parent).d_inode = some dir)
    (hi : k2.inodes = k.inodes.set dir D ++ [v])
    (hDm : D.i_mode = (k.inode_at dir).i_mode)
    (hDn : D.i_nlink = if S_ISDIR v.i_mode = true
      then ((k.inode_at dir).i_nlink + 1) % 2 ^ 32 else (k.inode_at dir).i_nlink)
    (hv : S_ISDIR v.i_mode = true → v.i_nlink = 2)
    (hde : k2.dentries = k.dentries ++ [nd])
    (hnd1 : nd.d_parent = parent) (hnd2 : nd.d_inode = some k.inodes.length) :
    pointers_valid k2 ∧ link_count_invariant32 k2 := by
  have hdir : dir < k.inodes.length := (hpv parent hp).2 dir hpi
  have hilen : k2.inodes.length = k.inodes.length + 1 := by simp [hi]
  have hdlen : k2.dentries.length = k.dentries.length + 1 := by simp [hde]
  have inew : k2.inode_at k.inodes.length = v := by
    unfold kernel.inode_at
    rw [hi]
    exact getD_set_append_last _ _ _ _ _
  have idir : k2.inode_at dir = D := by
    unfold kernel.inode_at
    rw [hi]
    exact getD_set_append_self _ _ _ _ _ hdir
  have iother : ∀ i, i < k.inodes.length → i ≠ dir → k2.inode_at i = k.inode_at i := by
    intro i hlt hne
    unfold kernel.inode_at
    rw [hi]
    exact getD_set_append_other _ _ _ _ _ _ hlt (Ne.symm hne)
  have imode : ∀ i, i < k.inodes.length → (k2.inode_at i).i_mode = (k.inode_at i).i_mode := by
    intro i hlt
    by_cases hid : i = dir
    · rw [hid, idir, hDm]
    · rw [iother i hlt hid]
  have dold : ∀ j, j < k.dentries.length → k2.dentry_at j = k.dentry_at j := by
    intro j hlt
    unfold kernel.dentry_at
    rw [hde]
    exact getD_append_lt _ _ _ _ hlt
  have dnew : k2.dentry_at k.dentries.length = nd := by
    unfold kernel.dentry_at
    rw [hde]
    exact getD_append_last _ _ _
  have hold : ∀ i j, j < k.dentries.length →
      is_subdir_entry k2 i j = is_subdir_entry k i j := by
    intro i j hlt
    unfold is_subdir_entry
    rw [dold j hlt, dold _ (hpv j hlt).1]
    cases hc : (k.dentry_at j).d_inode with
    | none => rfl
    | some c => simp only [imode c ((hpv j hlt).2 c hc)]
  have hnew : ∀ i, is_subdir_entry k2 i k.dentries.length =
      (decide (dir = i) && S_ISDIR v.i_mode) := by
    intro i
    unfold is_subdir_entry
    rw [dnew, hnd1, dold parent hp, hpi, hnd2]
    simp only [inew]
    have h1 : (parent != k.dentries.length) = true := by
      simp only [bne_iff_ne, ne_eq]
      omega
    rw [h1]
    by_cases hid : dir = i <;> simp [hid]
  have hcount : ∀ i, subdir_count k2 i =
      subdir_count k i + (if dir = i ∧ S_ISDIR v.i_mode = true then 1 else 0) := by
    intro i
    rw [subdir_count_grow k k2 i hdlen (hold i), hnew i]
    simp
  have hzero : subdir_count k k.inodes.length = 0 := by
    unfold subdir_count
    rw [List.countP_eq_zero]
    intro j hj
    have hlt := List.mem_range.mp hj
    unfold is_subdir_entry
    cases hc : (k.dentry_at (k.dentry_at j).d_parent).d_inode with
    | none => simp
    | some c =>
      have hcl := (hpv _ (hpv j hlt).1).2 c hc
      have : c ≠ k.inodes.length := by omega
      simp [this]
  constructor
  · intro j hj
    rw [hdlen] at hj
    rw [hdlen, hilen]
    by_cases hjq : j < k.dentries.length
    · rw [dold j hjq]
      refine ⟨Nat.lt_succ_of_lt (hpv j hjq).1, fun c hc => Nat.lt_succ_of_lt ((hpv j hjq).2 c hc)⟩
    · have : j = k.dentries.length := by omega
      rw [this, dnew, hnd1, hnd2]
      refine ⟨Nat.lt_succ_of_lt hp, fun c hc => ?_⟩
      have := Option.some.inj hc
      omega
  · intro i hlt hisdir
    rw [hilen] at hlt
    rw [hcount i]
    by_cases hin : i < k.inodes.length
    · rw [imode i hin] at hisdir
      have hold_inv := hinv i hin hisdir
      by_cases hid : i = dir
      · subst hid
        rw [idir, hDn]
        by_cases hvd : S_ISDIR v.i_mode = true
        · simp only [hvd, if_true, and_self, true_and]
          rw [hold_inv]
          omega
        · simp only [hvd, if_false, and_false]
          rw [hold_inv]
          simp
      · rw [iother i hin hid, hold_inv]
        have : ¬ (dir = i ∧ S_ISDIR v.i_mode = true) := fun h => hid h.1.symm
        simp [this]
    · have hie : i = k.inodes.length := by omega
      subst hie
      rw [inew] at hisdir ⊢
      rw [hv hisdir, hzero]
      have : ¬ (dir = k.inodes.length ∧ S_ISDIR v.i_mode = true) := fun h => by omega
      simp [this]

theorem lookup_create_some (k : kernel) (parent : Nat) (name : String) (dir dentry : Nat)
    (k1 : kernel) (h : lookup_create k parent name = some (dir, dentry, k1)) :
    parent < k.dentries.length ∧ (k.dentry_at parent).d_inode = some dir ∧
    dentry = k.dentries.length ∧
    k1 = { k with
           dentries := k.dentries ++
             [{ d_parent := parent, d_name := name, d_inode := none, d_count := 1 }],
           free_dentries := k.free_dentries - 1 } := by
  unfold lookup_create at h
  by_cases hp : parent < k.dentries.length
  · rw [if_pos hp] at h
    cases hd : (k.dentry_at parent).d_inode with
    | none => rw [hd] at h; simp at h
    | some dir2 =>
      rw [hd] at h
      simp only at h
      split at h
      · unfold d_alloc at h
        by_cases hf : k.free_dentries = 0
        · simp [hf] at h
        · simp only [hf, if_false] at h
          simp only [Option.some.injEq, Prod.mk.injEq] at h
          obtain ⟨h1, h2, h3⟩ := h
          exact ⟨hp, by rw [h1], h2.symm, h3.symm⟩
      · simp at h
  · rw [if_neg hp] at h
    simp at h

/-- The state a successful creation call leaves, given the closed forms of
`lookup_create` and of the module function, keeps the invariants. -/
theorem created_preserves (k : kernel) (parent dir : Nat) (name : String) (D v : inode)
    (k2 : kernel)
    (hpv : pointers_valid k) (hinv : link_count_invariant32 k)
    (hp : parent < k.dentries.length) (hpi : (k.dentry_at parent).d_inode = some dir)
    (hDm : D.i_mode = (k.inode_at dir).i_mode)
    (hDn : D.i_nlink = if S_ISDIR v.i_mode = true
      then ((k.inode_at dir).i_nlink + 1) % 2 ^ 32 else (k.inode_at dir).i_nlink)
    (hv : S_ISDIR v.i_mode = true → v.i_nlink = 2)
    (hi : k2.inodes = k.inodes.set dir D ++ [v])
    (hd : k2.dentries =
      (k.dentries ++
          [({ d_parent := parent, d_name := name, d_inode := none, d_count := 1 } : dentry)]).set
        k.dentries.length
        { d_parent := parent, d_name := name, d_inode := some k.inodes.length, d_count := 2 }) :
    pointers_valid k2 ∧ link_count_invariant32 k2 := by
  rw [set_append_last] at hd
  exact grow_preserves k k2 parent dir D v _ hpv hinv hp hpi hi hDm hDn hv hd rfl rfl

theorem vfs_step_preserves (k k2 : kernel) (c : vfs_call) (hc : c.mode_as_vfs = true)
    (hs : vfs_step k c = some k2)
    (hpv : pointers_valid k) (hinv : link_count_invariant32 k) :
    pointers_valid k2 ∧ link_count_invariant32 k2 := by
  cases c with
  | create parent name mode =>
    simp only [vfs_step] at hs
    cases hl : lookup_create k parent name with
    | none => rw [hl] at hs; simp at hs
    | some r =>
      obtain ⟨dir, dentry, k1⟩ := r
      rw [hl] at hs
      simp only at hs
      split at hs
      · rename_i hok
        obtain ⟨hp, hpi, hden, hk1⟩ := lookup_create_some k parent name dir dentry k1 hl
        have hdir : dir < k.inodes.length := (hpv parent hp).2 dir hpi
        subst hk1 hden
        unfold newfs_create at hok hs
        have h0 := mknod_success_alloc _ _ _ _ _ hok
        obtain ⟨v, he, hm, -, -, hn⟩ := mknod_ok _ dir k.dentries.length (mode ||| S_IFREG) 0 h0 hdir
        rw [he] at hs
        have hk2 := (Option.some.inj hs).symm
        have hvd : S_ISDIR v.i_mode = false := by
          rw [isdir_new_node _ _ _ hm]
          have := lor_reg_not_dir mode
          simpa [S_ISDIR] using this
        refine created_preserves k parent dir name
          { k.inode_at dir with i_mtime := k.now, i_ctime := k.now } v k2 hpv hinv hp hpi rfl
          ?_ ?_ ?_ ?_
        · simp [hvd, kernel.inode_at]
        · simp [hvd]
        · rw [hk2]
          rfl
        · rw [hk2]
          simp only [kernel.dentry_at, getD_append_last]
      · simp at hs
  | mkdir parent name mode =>
    simp only [vfs_step] at hs
    cases hl : lookup_create k parent name with
    | none => rw [hl] at hs; simp at hs
    | some r =>
      obtain ⟨dir, dentry, k1⟩ := r
      rw [hl] at hs
      simp only at hs
      split at hs
      · rename_i hok
        obtain ⟨hp, hpi, hden, hk1⟩ := lookup_create_some k parent name dir dentry k1 hl
        have hdir : dir < k.inodes.length := (hpv parent hp).2 dir hpi
        subst hk1 hden
        have h0 := mkdir_success_alloc _ _ _ _ hok
        obtain ⟨v, he, hm, -, -, hn⟩ := mkdir_ok _ dir k.dentries.length mode h0 hdir
        rw [he] at hs
        have hk2 := (Option.some.inj hs).symm
        have hmd : S_ISDIR (mode ||| S_IFDIR) = true := hc
        have hvd : S_ISDIR v.i_mode = true := by
          rw [isdir_new_node _ _ _ hm]
          exact hmd
        refine created_preserves k parent dir name
          { k.inode_at dir with
            i_mtime := k.now, i_ctime := k.now,
            i_nlink := ((k.inode_at dir).i_nlink + 1) % 2 ^ 32 } v k2 hpv hinv hp hpi rfl
          ?_ ?_ ?_ ?_
        · simp [hvd]
        · intro _
          rw [hn, if_pos ((S_ISDIR_iff _).mp hmd)]
        · rw [hk2]
          rfl
        · rw [hk2]
          simp only [kernel.dentry_at, getD_append_last]
      · simp at hs
  | mknod parent name mode dev =>
    simp only [vfs_step] at hs
    cases hl : lookup_create k parent name with
    | none => rw [hl] at hs; simp at hs
    | some r =>
      obtain ⟨dir, dentry, k1⟩ := r
      rw [hl] at hs
      simp only at hs
      split at hs
      · rename_i hok
        obtain ⟨hp, hpi, hden, hk1⟩ := lookup_create_some k parent name dir dentry k1 hl
        have hdir : dir < k.inodes.length := (hpv parent hp).2 dir hpi
        subst hk1 hden
        have h0 := mknod_success_alloc _ _ _ _ _ hok
        obtain ⟨v, he, hm, -, -, hn⟩ := mknod_ok _ dir k.dentries.length mode dev h0 hdir
        rw [he] at hs
        have hk2 := (Option.some.inj hs).symm
        have hvd : S_ISDIR v.i_mode = false := by
          rw [isdir_new_node _ _ _ hm]
          simpa [vfs_call.mode_as_vfs] using hc
        refine created_preserves k parent dir name
          { k.inode_at dir with i_mtime := k.now, i_ctime := k.now } v k2 hpv hinv hp hpi rfl
          ?_ ?_ ?_ ?_
        · simp [hvd, kernel.inode_at]
        · simp [hvd]
        · rw [hk2]
          rfl
        · rw [hk2]
          simp only [kernel.dentry_at, getD_append_last]
      · simp at hs
  | env fsuid fsgid now free_inodes free_dentries =>
    unfold vfs_step at hs
    have hk2 := (Option.some.inj hs).symm
    subst hk2
    exact ⟨hpv, hinv⟩

theorem vfs_run_preserves (calls : List vfs_call) (k k2 : kernel)
    (hc : calls.all vfs_call.mode_as_vfs = true) (hs : vfs_run k calls = some k2)
    (hpv : pointers_valid k) (hinv : link_count_invariant32 k) :
    pointers_valid k2 ∧ link_count_invariant32 k2 := by
  induction calls generalizing k with
  | nil =>
    simp only [vfs_run, Option.some.injEq] at hs
    subst hs
    exact ⟨hpv, hinv⟩
  | cons c cs ih =>
    simp only [List.all_cons, Bool.and_eq_true] at hc
    simp only [vfs_run] at hs
    cases h1 : vfs_step k c with
    | none => rw [h1] at hs; simp at hs
    | some k1 =>
      rw [h1] at hs
      simp only [Option.bind] at hs
      obtain ⟨hp1, hi1⟩ := vfs_step_preserves k k1 c hc.1 h1 hpv hinv
      exact ih k1 hc.2 hs hp1 hi1

theorem mount_establishes (k0 : kernel) (sb : super_block)
    (hi : k0.inodes = []) (hd : k0.dentries = []) :
    pointers_valid (newfs_fill_super k0 sb).2.2 ∧
    link_count_invariant32 (newfs_fill_super k0 sb).2.2 := by
  by_cases h0 : k0.free_inodes = 0
  · have he := get_inode_fail k0 (S_IFDIR ||| 0o755) 0 h0
    unfold newfs_fill_super
    rw [he]
    simp only [d_alloc_root]
    constructor
    · intro j hj
      rw [hd] at hj
      exact absurd hj (Nat.not_lt_zero _)
    · intro i hlt
      rw [hi] at hlt
      exact absurd hlt (Nat.not_lt_zero _)
  · obtain ⟨v, he, -, -, -, hn, -, -⟩ := get_inode_ok k0 (S_IFDIR ||| 0o755) 0 h0
    have hk : (S_IFDIR ||| 0o755) &&& S_IFMT = S_IFDIR := by decide
    rw [if_pos hk] at hn
    unfold newfs_fill_super
    rw [he]
    by_cases h1 : k0.free_dentries = 0
    · simp only [d_alloc_root, h1, if_true]
      constructor
      · intro j hj
        simp only [hd] at hj
        exact absurd hj (Nat.not_lt_zero _)
      · intro i hlt _
        simp only [hi, List.nil_append, List.length_singleton] at hlt
        have hi0 : i = 0 := by omega
        subst hi0
        simp [kernel.inode_at, hi, subdir_count, hd, hn]
    · simp only [d_alloc_root, h1, if_false]
      constructor
      · intro j hj
        simp only [hd, List.nil_append, List.length_singleton] at hj
        have hj0 : j = 0 := by omega
        subst hj0
        simp [kernel.dentry_at, hd, hi]
      · intro i hlt _
        simp only [hi, List.nil_append, List.length_singleton] at hlt
        have hi0 : i = 0 := by omega
        subst hi0
        simp [kernel.inode_at, kernel.dentry_at, hi, subdir_count, hd, hn, is_subdir_entry,
          List.range_succ]

/-- C9 as stated fails for `newfs_mknod` with a directory mode.  From the fresh
mount of `boot`, one successful `mknod` of "d" with mode `S_IFDIR | 0755` under
the root leaves the root with link count 2 although one entry under it is a
directory.  A `mkdir` whose mode carries the type bits of a regular file fails
the other way: the root's link count becomes 3 while the node created is a
socket, not a directory. -/
theorem mknod_directory_breaks_link_count :
    boot.inodes = [] ∧ boot.dentries = [] ∧ (newfs_fill_super boot blank_sb).1 = 0 ∧
    (∃ k, vfs_run (newfs_fill_super boot blank_sb).2.2 [.mknod 0 "d" (S_IFDIR ||| 0o755) 0] = some k ∧
      S_ISDIR (k.inode_at 0).i_mode = true ∧
      (k.inode_at 0).i_nlink = 2 ∧ subdir_count k 0 = 1 ∧ ¬ link_count_invariant k) ∧
    (∃ k, vfs_run (newfs_fill_super boot blank_sb).2.2 [.mkdir 0 "d" S_IFREG] = some k ∧
      S_ISDIR (k.inode_at 0).i_mode = true ∧
      (k.inode_at 0).i_nlink = 3 ∧ subdir_count k 0 = 0 ∧ ¬ link_count_invariant k) := by
  refine ⟨rfl, rfl, by decide,
    ⟨(newfs_mknod (d_alloc mounted 0 "d").2 0 1 (S_IFDIR ||| 0o755) 0).2,
      by decide, by decide, by decide, by decide, ?_⟩,
    ⟨(newfs_mkdir (d_alloc mounted 0 "d").2 0 1 S_IFREG).2,
      by decide, by decide, by decide, by decide, ?_⟩⟩
  · intro h
    have h0 := h 0 (by decide) (by decide)
    revert h0
    decide
  · intro h
    have h0 := h 0 (by decide) (by decide)
    revert h0
    decide

/-- C9 (amended). In every state reached from a fresh mount by successful
`newfs_create`, `newfs_mkdir` and `newfs_mknod` calls made with the modes the
VFS passes (`mkdir` with no foreign file-type bits, `mknod` with a
non-directory mode), every directory's link count equals 2, the link count of a
new directory, plus the number of entries under it whose node is a directory,
in 32-bit arithmetic; the equation is exact while fewer than 2^32 - 2 entries
exist. -/
theorem link_count_invariant_reachable (k0 : kernel) (sb : super_block)
    (calls : List vfs_call) (k : kernel)
    (hi : k0.inodes = []) (hd : k0.dentries = [])
    (hmodes : calls.all vfs_call.mode_as_vfs = true)
    (hrun : vfs_run (newfs_fill_super k0 sb).2.2 calls = some k) :
    link_count_invariant32 k ∧ (k.dentries.length + 2 < 2 ^ 32 → link_count_invariant k) := by
  obtain ⟨hpv0, hinv0⟩ := mount_establishes k0 sb hi hd
  obtain ⟨-, hinv⟩ := vfs_run_preserves calls _ k hmodes hrun hpv0 hinv0
  refine ⟨hinv, ?_⟩
  intro hsmall i hlt hdir
  rw [hinv i hlt hdir]
  apply Nat.mod_eq_of_lt
  have hle : subdir_count k i ≤ k.dentries.length := by
    unfold subdir_count
    have h := @List.countP_le_length _ (is_subdir_entry k i) (List.range k.dentries.length)
    rwa [List.length_range] at h
  omega

/-- Witness for C9 (amended): `example_calls` on the fresh mount of `boot`. -/
theorem link_count_invariant_reachable_witness :
    example_calls.all vfs_call.mode_as_vfs = true ∧
    vfs_run (newfs_fill_super boot blank_sb).2.2 example_calls = some populated ∧
    link_count_invariant32 populated ∧ link_count_invariant populated ∧
    (populated.inode_at 0).i_nlink = 3 ∧ subdir_count populated 0 = 1 :=
  ⟨by decide, by decide,
    (link_count_invariant_reachable boot blank_sb example_calls populated rfl rfl
      (by decide) (by decide)).1,
    (link_count_invariant_reachable boot blank_sb example_calls populated rfl rfl
      (by decide) (by decide)).2 (by decide),
    by decide, by decide⟩

end newfs
